import Mathlib

/-!
Verification of the Petly community backend against its specification.

The development shallowly embeds the JavaScript services of the repository:
post scoring (`Post.model.js` pre-save hook), vote toggling and cache
invalidation (`post.service.js`), chat message sending, delivery/read
receipts and DM channels (`chat.service.js`), AI moderation fallback
(`ai.service.js`), and the in-memory presence registry
(`presence.handler.js`).  JavaScript numbers are modelled as exact
rationals (with `Math.log10` kept as an abstract parameter, applied
identically by code and spec), Mongoose arrays as Lean lists, and the
socket `Map`/`Set` registry as an association list of lists.
-/

namespace Petly

/-! ## Post scoring (`Post.model.js`, pre-save hook)

The hook computes, from `Date.now()` and the post's fields:
  ageInHours = (Date.now() - createdAt) / (1000*60*60)
  voteCount  = upvotes.length - downvotes.length
  commentWeight = commentCount * 0.5
  order = Math.log10(Math.max(Math.abs(voteCount), 1))
  sign  = voteCount > 0 ? 1 : voteCount < 0 ? -1 : 0
  score = Math.round((order + sign * ageInHours / 45000 + commentWeight) * 10000) / 10000
Timestamps are in milliseconds.  `Math.log10` is modelled as an abstract
function on the natural argument `Math.max(Math.abs(voteCount), 1)`,
and `Math.round x` as `⌊x + 1/2⌋` (round half toward +∞), over `ℚ`. -/

/-- JavaScript `Math.round`: round half toward positive infinity. -/
def jsRound (x : ℚ) : ℤ := ⌊x + 1/2⌋

/-- A post document: the fields read or written by the pre-save hook
(`upvotes`, `downvotes` are Mongoose arrays of user ids). -/
structure Post where
  upvotes : List ℕ
  downvotes : List ℕ
  commentCount : ℕ
  createdAt : ℚ  -- milliseconds since epoch
  score : ℚ
  deriving Repr, DecidableEq

/-- The score computed by the pre-save hook of `Post.model.js`, with
`Date.now()` passed as `now` (milliseconds) and `Math.log10` as `log10`. -/
def computeScore (log10 : ℕ → ℚ) (now : ℚ) (p : Post) : ℚ :=
  let ageInHours : ℚ := (now - p.createdAt) / (1000 * 60 * 60)
  let voteCount : ℤ := (p.upvotes.length : ℤ) - (p.downvotes.length : ℤ)
  let commentWeight : ℚ := (p.commentCount : ℚ) * (1/2)
  let order : ℚ := log10 (max voteCount.natAbs 1)
  let sign : ℚ := if voteCount > 0 then 1 else if voteCount < 0 then -1 else 0
  (jsRound ((order + sign * ageInHours / 45000 + commentWeight) * 10000) : ℚ) / 10000

/-- `save`: Mongoose runs the pre-save hook, which assigns `this.score`. -/
def save (log10 : ℕ → ℚ) (now : ℚ) (p : Post) : Post :=
  { p with score := computeScore log10 now p }

/-- The score formula exactly as the specification states it (§4.3):
`voteCount = |upvoters| - |downvoters|`, `order = log10(max(|voteCount|, 1))`,
`sign = +1, 0 or -1` per sign of `voteCount`, `ageInHours = (now - createdAt) / 3600s`
(timestamps in seconds), `commentWeight = commentCount × 0.5`,
`score = round((order + sign × ageInHours / 45000 + commentWeight) × 10000) / 10000`. -/
def specScore (log10 : ℕ → ℚ) (nowSec createdAtSec : ℚ)
    (upvoters downvoters : List ℕ) (commentCount : ℕ) : ℚ :=
  let voteCount : ℤ := (upvoters.length : ℤ) - (downvoters.length : ℤ)
  let order : ℚ := log10 (max voteCount.natAbs 1)
  let sign : ℚ := if voteCount > 0 then 1 else if voteCount < 0 then -1 else 0
  let ageInHours : ℚ := (nowSec - createdAtSec) / 3600
  let commentWeight : ℚ := (commentCount : ℚ) * (1/2)
  (jsRound ((order + sign * ageInHours / 45000 + commentWeight) * 10000) : ℚ) / 10000

/-! ## Vote toggling (`post.service.js`, `upvotePost` / `downvotePost`)

The service loads the post, checks `upvotes.includes(userId)` and
`downvotes.includes(userId)`, and mutates the two Mongoose arrays with
`push` (append) and `pull` (remove every occurrence).  Only the two vote
arrays are touched, so the state is modelled by just those arrays. -/

/-- The up/down vote arrays of a post (user ids). -/
structure VoteState where
  up : List ℕ
  down : List ℕ
  deriving Repr, DecidableEq

/-- Mongoose `array.pull(userId)`: removes every occurrence of `userId`. -/
def pull (l : List ℕ) (u : ℕ) : List ℕ := l.filter (fun x => x ≠ u)

/-- `PostService.upvotePost`: toggle off an existing upvote, otherwise add
an upvote and remove an existing downvote by the same user. -/
def upvote (u : ℕ) (s : VoteState) : VoteState :=
  if u ∈ s.up then
    { s with up := pull s.up u }
  else
    { up := s.up ++ [u],
      down := if u ∈ s.down then pull s.down u else s.down }

/-- `PostService.downvotePost`: toggle off an existing downvote, otherwise
add a downvote and remove an existing upvote by the same user. -/
def downvote (u : ℕ) (s : VoteState) : VoteState :=
  if u ∈ s.down then
    { s with down := pull s.down u }
  else
    { down := s.down ++ [u],
      up := if u ∈ s.up then pull s.up u else s.up }

/-- A vote call: which user votes, and in which direction. -/
inductive VoteOp where
  | upCall (u : ℕ)
  | downCall (u : ℕ)
  deriving Repr, DecidableEq

/-- Apply one vote call to the post's vote arrays. -/
def applyVote (s : VoteState) (op : VoteOp) : VoteState :=
  match op with
  | .upCall u => upvote u s
  | .downCall u => downvote u s

/-- Apply a sequence of vote calls, oldest first. -/
def runVotes (s : VoteState) (ops : List VoteOp) : VoteState :=
  ops.foldl applyVote s

/-- The invariant: no user is simultaneously in both vote sets. -/
def Exclusive (s : VoteState) : Prop :=
  ∀ v : ℕ, v ∈ s.up → v ∉ s.down

/-- How many of user `u`'s two memberships (upvoter, downvoter) a
transition from `s` to s-prime adds. -/
def addedMemberships (u : ℕ) (s t : VoteState) : ℕ :=
  (if u ∉ s.up ∧ u ∈ t.up then 1 else 0) +
  (if u ∉ s.down ∧ u ∈ t.down then 1 else 0)

/-- How many of user `u`'s two memberships a transition removes. -/
def removedMemberships (u : ℕ) (s t : VoteState) : ℕ :=
  (if u ∈ s.up ∧ u ∉ t.up then 1 else 0) +
  (if u ∈ s.down ∧ u ∉ t.down then 1 else 0)

/-! ## Presence registry (`presence.handler.js`)

`PresenceHandler` keeps `userSockets : Map<userId, Set<socketId>>`.
`handleConnect` adds the socket id and, when the set size becomes 1,
persists `isOnline=true` and broadcasts to the user's communities;
`handleDisconnect` removes the socket id and, when the set becomes empty,
persists `isOnline=false`, broadcasts, and deletes the map entry.
The map is modelled as an association list, the `Set` as a
duplicate-free list; the database write and the community broadcast are
modelled as emitted events. -/

/-- A side effect of a presence transition: the `User` document update
(`updateUserStatus`) or the community broadcast (`notifyCommunities`). -/
inductive PresenceEvent where
  | statusPersist (uid : ℕ) (isOnline : Bool)
  | broadcast (uid : ℕ) (isOnline : Bool)
  deriving Repr, DecidableEq

/-- The in-memory `userSockets` map: user id → set of live socket ids. -/
abbrev Registry := List (ℕ × List ℕ)

/-- JavaScript `Set.add`: no-op when the element is already present. -/
def setAdd (s : List ℕ) (sid : ℕ) : List ℕ :=
  if sid ∈ s then s else s ++ [sid]

/-- `Map.set(uid, s)`: replace the entry for `uid`, or append a new one. -/
def setEntry (reg : Registry) (uid : ℕ) (s : List ℕ) : Registry :=
  if (reg.lookup uid).isSome then
    reg.map (fun e => if e.1 = uid then (uid, s) else e)
  else
    reg ++ [(uid, s)]

/-- `PresenceHandler.handleConnect`: add the socket to the user's set; on a
0→1 size transition persist online status and broadcast. -/
def handleConnect (reg : Registry) (uid sid : ℕ) : Registry × List PresenceEvent :=
  let s := (reg.lookup uid).getD []
  let s1 := setAdd s sid
  let reg1 := setEntry reg uid s1
  if s1.length = 1 then
    (reg1, [.statusPersist uid true, .broadcast uid true])
  else
    (reg1, [])

/-- `PresenceHandler.handleDisconnect`: remove the socket from the user's
set; when it becomes empty persist offline status, broadcast, and drop the
registry entry.  No entry → no effect. -/
def handleDisconnect (reg : Registry) (uid sid : ℕ) : Registry × List PresenceEvent :=
  match reg.lookup uid with
  | none => (reg, [])
  | some s =>
    let s1 := s.filter (fun x => x ≠ sid)
    if s1.length = 0 then
      (reg.filter (fun e => e.1 ≠ uid),
        [.statusPersist uid false, .broadcast uid false])
    else
      (setEntry reg uid s1, [])

/-- `PresenceHandler.isUserOnline`: the map has the user's entry and the
socket set is non-empty. -/
def isUserOnline (reg : Registry) (uid : ℕ) : Bool :=
  match reg.lookup uid with
  | some s => 0 < s.length
  | none => false

/-! ## AI moderation (`ai.service.js`) and its users

`AIService.moderateContent` posts to the external service and, on any
error or timeout, catches and returns the safe default — it never rejects.
`PostService.createPost` and `ChatService.sendMessage` call it inside a
`try` block, assign the result to `aiAnalysis`, and raise the guideline
`ApiError` inside the same block; the matching `catch` only logs a
warning, so execution continues with `aiAnalysis` still assigned.
The service call is modelled as `Except Unit ModResult` (response or
failure); numbers are exact rationals. -/

/-- The JSON body returned by the external moderation endpoint, or the
safe default substituted on failure. -/
structure ModResult where
  toxicity_score : ℚ
  is_safe : Bool
  flagged : Bool
  sentiment : Option String := none
  categories : Option (List String) := none
  errorMsg : Option String := none
  deriving Repr, DecidableEq

/-- The safe default `AIService.moderateContent` returns when the HTTP
call errors or times out. -/
def safeDefault : ModResult :=
  { toxicity_score := 0, is_safe := true, flagged := false,
    errorMsg := some "Moderation service unavailable" }

/-- `AIService.moderateContent`: the service response, or the safe default
on failure; it never throws to its caller. -/
def moderateContent (svc : Except Unit ModResult) : ModResult :=
  match svc with
  | .ok r => r
  | .error _ => safeDefault

/-- The service-layer error type (`apiError.js`). -/
structure ApiError where
  message : String
  statusCode : ℕ
  deriving Repr, DecidableEq

/-- The guideline check performed right after the moderation call:
`if (aiAnalysis.flagged || aiAnalysis.toxicity_score > 0.7) throw ApiError`. -/
def moderationGate (r : ModResult) (msg : String) : Except ApiError Unit :=
  if r.flagged || decide ((7/10 : ℚ) < r.toxicity_score) then
    .error ⟨msg, 400⟩
  else
    .ok ()

/-- The moderation `try`/`catch` block shared by `createPost` and
`sendMessage`: `aiAnalysis` is assigned before the gate can throw, and the
`catch` handler only logs the warning, so the assigned analysis survives
in either branch. -/
def moderationBlock (svc : Except Unit ModResult) (msg : String) : ModResult :=
  let r := moderateContent svc
  match moderationGate r msg with
  | .ok _ => r
  | .error _ => r

/-- The `aiAnalysis` subdocument `createPost` writes on the post. -/
structure AiAnalysis where
  sentiment : Option String := none
  toxicityScore : ℚ
  categories : List String := []
  analyzedAt : ℕ
  deriving Repr, DecidableEq

/-- The mapping from a moderation result to the stored post subdocument:
`{sentiment, toxicityScore: toxicity_score, categories: categories || [],
analyzedAt: new Date()}`. -/
def toAiAnalysis (r : ModResult) (now : ℕ) : AiAnalysis :=
  { sentiment := r.sentiment, toxicityScore := r.toxicity_score,
    categories := r.categories.getD [], analyzedAt := now }

/-- The outcomes of the database lookups `createPost` performs before the
moderation block (community existence/activity, membership, permission). -/
structure CreateCtx where
  communityFound : Bool
  communityActive : Bool
  isMember : Bool
  modOnlyPosts : Bool
  isModerator : Bool
  deriving Repr, DecidableEq

/-- The created post as far as the moderation claims observe it. -/
structure CreatedPost where
  aiAnalysis : Option AiAnalysis
  deriving Repr, DecidableEq

/-- `PostService.createPost`: the checks, the moderation block (run only
when the content is longer than 10 characters), and the document write. -/
def createPost (ctx : CreateCtx) (contentLen : ℕ) (svc : Except Unit ModResult)
    (now : ℕ) : Except ApiError CreatedPost :=
  if !ctx.communityFound then .error ⟨"Community not found", 404⟩
  else if !ctx.communityActive then .error ⟨"Community is not active", 400⟩
  else if !ctx.isMember then
    .error ⟨"You must be a member to post in this community", 403⟩
  else if ctx.modOnlyPosts && !ctx.isModerator then
    .error ⟨"Only moderators can post in this community", 403⟩
  else
    let aiAnalysis : Option ModResult :=
      if 10 < contentLen then
        some (moderationBlock svc "Content violates community guidelines")
      else none
    .ok { aiAnalysis := aiAnalysis.map (fun r => toAiAnalysis r now) }

/-! ## Chat service (`chat.service.js`)

`sendMessage` is modelled on the fields the claims observe (sender,
recipient, channel, aiAnalysis, deliveredTo, readBy); media and reply-to
handling are orthogonal to every claim and omitted. -/

/-- The `aiAnalysis` subdocument `sendMessage` writes:
`{sentiment, toxicityScore}`. -/
structure ChatAiAnalysis where
  sentiment : Option String := none
  toxicityScore : ℚ
  deriving Repr, DecidableEq

/-- `ChatService.getDirectMessageChannel`: JavaScript `[a, b].sort()`
(lexicographic, stable — it swaps only when the second id is strictly
smaller) joined as `dm:<first>:<second>`. -/
def getDirectMessageChannel (userId1 userId2 : String) : String :=
  let sortedIds := if userId2 < userId1 then (userId2, userId1) else (userId1, userId2)
  "dm:" ++ sortedIds.1 ++ ":" ++ sortedIds.2

/-- A chat message document (the fields the claims observe).
`deliveredTo` and `readBy` entries are `(user, timestamp)` pairs. -/
structure Message where
  sender : String
  community : Option String := none
  receiver : Option String := none
  channel : String
  aiAnalysis : Option ChatAiAnalysis := none
  deliveredTo : List (String × ℕ) := []
  readBy : List (String × ℕ) := []
  deriving Repr, DecidableEq

/-- The outcomes of the recipient lookups `sendMessage` performs. -/
structure SendCtx where
  communityFound : Bool
  communityActive : Bool
  isMember : Bool
  receiverFound : Bool
  deriving Repr, DecidableEq

/-- `ChatService.sendMessage`: recipient validation, the moderation block,
channel computation, and the seeded sender delivery receipt. -/
def sendMessage (senderId : String) (contentLen : ℕ)
    (communityId receiverId : Option String) (ctx : SendCtx)
    (svc : Except Unit ModResult) (now : ℕ) : Except ApiError Message :=
  if communityId.isNone && receiverId.isNone then
    .error ⟨"Either communityId or receiverId is required", 400⟩
  else if communityId.isSome && receiverId.isSome then
    .error ⟨"Cannot specify both communityId and receiverId", 400⟩
  else
    let aiAnalysis : Option ChatAiAnalysis :=
      if 10 < contentLen then
        let r := moderationBlock svc "Message violates community guidelines"
        some { sentiment := r.sentiment, toxicityScore := r.toxicity_score }
      else none
    match communityId, receiverId with
    | some cid, _ =>
      if !ctx.communityFound then .error ⟨"Community not found", 404⟩
      else if !ctx.communityActive then .error ⟨"Community is not active", 400⟩
      else if !ctx.isMember then
        .error ⟨"You must be a member to send messages in this community", 403⟩
      else
        .ok { sender := senderId, community := some cid,
              channel := "community:" ++ cid, aiAnalysis := aiAnalysis,
              deliveredTo := [(senderId, now)] }
    | none, some rid =>
      if !ctx.receiverFound then .error ⟨"Receiver not found", 404⟩
      else
        .ok { sender := senderId, receiver := some rid,
              channel := getDirectMessageChannel senderId rid,
              aiAnalysis := aiAnalysis, deliveredTo := [(senderId, now)] }
    | none, none => .error ⟨"Either communityId or receiverId is required", 400⟩

/-- The participant check of `markAsRead`: sender, direct receiver, or a
member of the message's community. -/
def isParticipantCheck (m : Message) (userId : String)
    (isCommunityMember : Bool) : Bool :=
  m.sender == userId || m.receiver == some userId ||
    (m.community.isSome && isCommunityMember)

/-- `ChatService.markAsRead`: reject non-participants; push a read receipt
only when the user has none yet. -/
def markAsRead (m : Message) (userId : String) (isCommunityMember : Bool)
    (now : ℕ) : Except ApiError Message :=
  if !(isParticipantCheck m userId isCommunityMember) then
    .error ⟨"Not authorized to mark this message as read", 403⟩
  else if m.readBy.any (fun e => e.1 == userId) then
    .ok m
  else
    .ok { m with readBy := m.readBy ++ [(userId, now)] }

/-- The per-message effect of the `updateMany` in `getCommunityMessages` /
`getDirectMessages`: push a delivery receipt unless the filter
`deliveredTo.user ≠ userId` excludes the message. -/
def markDelivered (m : Message) (userId : String) (now : ℕ) : Message :=
  if m.deliveredTo.any (fun e => e.1 == userId) then m
  else { m with deliveredTo := m.deliveredTo ++ [(userId, now)] }

/-! ## Cache layer and listing invalidation (`post.service.js`)

`redis.service.js` itself is not part of the source tree; only its call
sites are.  Its interface is therefore taken from the specification
(§6): `get(key) → value|absent` is an exact-key read and
`clearPattern(prefixPattern)` deletes every key matching the pattern.
Every pattern the post service passes is of the form `<prefix>*` (or an
exact key), so a key matches iff the pre-`*` part is a string prefix. -/

/-- Modelled from the spec: the cache's `get(key) → value|absent`
(exact-key lookup; `redis.service.js` is absent from the sources). -/
def cacheGet {V : Type} (cache : List (String × V)) (k : String) : Option V :=
  cache.lookup k

/-- Modelled from the spec: `clearPattern(prefixPattern)` removes every
cached key matching the prefix pattern (`redis.service.js` is absent from
the sources; `pat` is the pattern with the trailing `*` dropped). -/
def clearPat {V : Type} (cache : List (String × V)) (pat : String) :
    List (String × V) :=
  cache.filter (fun e => !(pat.data.isPrefixOf e.1.data))

/-- The prefix under which `getPostsByCommunity` stores every listing:
the invalidation pattern `community:<cid>:posts:*` without its star. -/
def communityPostsPat (cid : String) : String :=
  "community:" ++ cid ++ ":posts:"

/-- The cache key `getPostsByCommunity` uses:
`community:<cid>:posts:<JSON.stringify(filters)>:<page>:<limit>:<sort>`
(the serialised filters are an opaque string here). -/
def listingCacheKey (cid filters : String) (page limit : ℕ)
    (sortKey : String) : String :=
  "community:" ++ cid ++ ":posts:" ++ filters ++ ":" ++ toString page ++
    ":" ++ toString limit ++ ":" ++ sortKey

/-- The two cache invalidations `createPost` performs after the write:
`clearPattern("community:<cid>:posts:*")` and
`clearPattern("user:<uid>:posts")`. -/
def createPostClearCache {V : Type} (cid uid : String)
    (cache : List (String × V)) : List (String × V) :=
  clearPat (clearPat cache (communityPostsPat cid)) ("user:" ++ uid ++ ":posts")

end Petly

namespace Petly

/-- C1: the score persisted by a save equals the specification's formula
(the code's millisecond timestamps correspond to the spec's second
timestamps by division by 1000). -/
theorem save_score_eq_spec (log10 : ℕ → ℚ) (now : ℚ) (p : Post) :
    (save log10 now p).score =
      specScore log10 (now / 1000) (p.createdAt / 1000)
        p.upvotes p.downvotes p.commentCount := by
  simp only [save, computeScore, specScore]
  congr 2
  ring_nf

/-- C10: recomputing the score with no intervening mutation is idempotent —
a second save at the same instant leaves the document unchanged. -/
theorem save_idempotent (log10 : ℕ → ℚ) (now : ℚ) (p : Post) :
    save log10 now (save log10 now p) = save log10 now p := by
  simp [save, computeScore]

theorem mem_pull {l : List ℕ} {u x : ℕ} : x ∈ pull l u ↔ x ∈ l ∧ x ≠ u := by
  simp [pull]

theorem exclusive_upvote {s : VoteState} (h : Exclusive s) (u : ℕ) :
    Exclusive (upvote u s) := by
  intro v hv hvd
  by_cases hu : u ∈ s.up
  · simp [upvote, hu, mem_pull] at hv hvd
    exact h v hv.1 hvd
  · by_cases hd : u ∈ s.down <;> simp [upvote, hu, hd, mem_pull] at hv hvd
    · rcases hv with hv | rfl
      · exact h v hv hvd.1
      · exact hvd.2 rfl
    · rcases hv with hv | rfl
      · exact h v hv hvd
      · exact hd hvd

theorem exclusive_downvote {s : VoteState} (h : Exclusive s) (u : ℕ) :
    Exclusive (downvote u s) := by
  intro v hv hvd
  by_cases hd : u ∈ s.down
  · simp [downvote, hd, mem_pull] at hv hvd
    exact h v hv hvd.1
  · by_cases hu : u ∈ s.up <;> simp [downvote, hu, hd, mem_pull] at hv hvd
    · rcases hvd with hvd | rfl
      · exact h v hv.1 hvd
      · exact hv.2 rfl
    · rcases hvd with hvd | rfl
      · exact h v hv hvd
      · exact hu hv

theorem exclusive_runVotes (ops : List VoteOp) (s : VoteState) (h : Exclusive s) :
    Exclusive (runVotes s ops) := by
  induction ops generalizing s with
  | nil => exact h
  | cons op rest ih =>
    cases op with
    | upCall u => exact ih (upvote u s) (exclusive_upvote h u)
    | downCall u => exact ih (downvote u s) (exclusive_downvote h u)

theorem upvote_counts {s : VoteState} (h : Exclusive s) (u : ℕ) :
    addedMemberships u s (upvote u s) = 1 ∨ removedMemberships u s (upvote u s) = 1 := by
  by_cases hu : u ∈ s.up
  · right
    have hd : u ∉ s.down := h u hu
    simp [removedMemberships, upvote, hu, hd, mem_pull]
  · left
    by_cases hd : u ∈ s.down <;>
      simp [addedMemberships, upvote, hu, hd, mem_pull]

theorem downvote_counts {s : VoteState} (h : Exclusive s) (u : ℕ) :
    addedMemberships u s (downvote u s) = 1 ∨ removedMemberships u s (downvote u s) = 1 := by
  by_cases hd : u ∈ s.down
  · right
    have hu : u ∉ s.up := fun hu => h u hu hd
    simp [removedMemberships, downvote, hu, hd, mem_pull]
  · left
    by_cases hu : u ∈ s.up <;>
      simp [addedMemberships, downvote, hu, hd, mem_pull]

theorem upvote_mem_of_ne (u v : ℕ) (s : VoteState) (hvu : v ≠ u) :
    (v ∈ (upvote u s).up ↔ v ∈ s.up) ∧ (v ∈ (upvote u s).down ↔ v ∈ s.down) := by
  by_cases hu : u ∈ s.up <;> by_cases hd : u ∈ s.down <;>
    simp [upvote, hu, hd, mem_pull, hvu]

theorem downvote_mem_of_ne (u v : ℕ) (s : VoteState) (hvu : v ≠ u) :
    (v ∈ (downvote u s).up ↔ v ∈ s.up) ∧ (v ∈ (downvote u s).down ↔ v ∈ s.down) := by
  by_cases hu : u ∈ s.up <;> by_cases hd : u ∈ s.down <;>
    simp [downvote, hu, hd, mem_pull, hvu]

/-- C2: starting from any state satisfying the mutual-exclusivity invariant,
any sequence of vote calls preserves it (no user is ever in both vote sets);
each single vote call touches only the calling user's memberships, adds
exactly one membership or removes exactly one membership (a side switch does
both: adding the new vote removes the existing opposite vote). -/
theorem vote_calls_exclusive_and_change_one :
    (∀ (ops : List VoteOp) (s : VoteState), Exclusive s → Exclusive (runVotes s ops)) ∧
    (∀ (u : ℕ) (s : VoteState), Exclusive s →
      ((addedMemberships u s (upvote u s) = 1 ∨
          removedMemberships u s (upvote u s) = 1) ∧
        (u ∈ s.down → u ∉ (upvote u s).down ∧ u ∈ (upvote u s).up) ∧
        (∀ v, v ≠ u →
          (v ∈ (upvote u s).up ↔ v ∈ s.up) ∧ (v ∈ (upvote u s).down ↔ v ∈ s.down))) ∧
      ((addedMemberships u s (downvote u s) = 1 ∨
          removedMemberships u s (downvote u s) = 1) ∧
        (u ∈ s.up → u ∉ (downvote u s).up ∧ u ∈ (downvote u s).down) ∧
        (∀ v, v ≠ u →
          (v ∈ (downvote u s).up ↔ v ∈ s.up) ∧ (v ∈ (downvote u s).down ↔ v ∈ s.down)))) := by
  refine ⟨exclusive_runVotes, fun u s h => ⟨⟨upvote_counts h u, ?_, fun v hvu => upvote_mem_of_ne u v s hvu⟩, ⟨downvote_counts h u, ?_, fun v hvu => downvote_mem_of_ne u v s hvu⟩⟩⟩
  · intro hd
    have hu : u ∉ s.up := fun hu => h u hu hd
    simp [upvote, hu, hd, mem_pull]
  · intro hu
    have hd : u ∉ s.down := h u hu
    simp [downvote, hu, hd, mem_pull]

/-- Witness for C2 at a concrete state: user 0 holds a downvote, the
invariant holds, and an upvote call changes exactly one membership
(here: adds the upvote). -/
theorem vote_calls_exclusive_and_change_one_witness :
    Exclusive ⟨[], [0]⟩ ∧
    (addedMemberships 0 ⟨[], [0]⟩ (upvote 0 ⟨[], [0]⟩) = 1 ∨
      removedMemberships 0 ⟨[], [0]⟩ (upvote 0 ⟨[], [0]⟩) = 1) :=
  ⟨fun v hv => by simp [VoteState.up] at hv,
    ((vote_calls_exclusive_and_change_one.2 0 ⟨[], [0]⟩
      (fun v hv => by simp [VoteState.up] at hv)).1).1⟩

/-- C4 (amended): a double upvote call restores both vote sets provided the
user was not in the downvotes set before the first call, and a double
downvote call restores both sets provided the user was not in the upvotes
set (set restoration, i.e. membership equivalence). -/
theorem vote_toggle_self_inverse (u : ℕ) (s : VoteState) :
    (u ∉ s.down →
      (∀ x, x ∈ (upvote u (upvote u s)).up ↔ x ∈ s.up) ∧
      (∀ x, x ∈ (upvote u (upvote u s)).down ↔ x ∈ s.down)) ∧
    (u ∉ s.up →
      (∀ x, x ∈ (downvote u (downvote u s)).up ↔ x ∈ s.up) ∧
      (∀ x, x ∈ (downvote u (downvote u s)).down ↔ x ∈ s.down)) := by
  constructor
  · intro h
    by_cases hu : u ∈ s.up <;>
      refine ⟨fun x => ?_, fun x => ?_⟩ <;>
      by_cases hxu : x = u <;>
      simp [upvote, hu, h, mem_pull, hxu]
  · intro h
    by_cases hd : u ∈ s.down <;>
      refine ⟨fun x => ?_, fun x => ?_⟩ <;>
      by_cases hxu : x = u <;>
      simp [downvote, hd, h, mem_pull, hxu]

/-- Witness for C4's amended law: user 0 (not a downvoter) double-upvotes a
post whose upvoters are exactly user 5; membership of 5 is restored. -/
theorem vote_toggle_self_inverse_witness :
    (0 : ℕ) ∉ (VoteState.mk [5] []).down ∧
    (5 ∈ (upvote 0 (upvote 0 (VoteState.mk [5] []))).up ↔
      5 ∈ (VoteState.mk [5] []).up) :=
  ⟨by decide, ((vote_toggle_self_inverse 0 ⟨[5], []⟩).1 (by decide)).1 5⟩

/-- C4 counterexample: user 0 starts as a downvoter; two successive upvote
calls leave the downvotes set empty, so the state before the first call is
not restored. -/
theorem upvote_twice_not_self_inverse :
    0 ∈ (VoteState.mk [] [0]).down ∧
    0 ∉ (upvote 0 (upvote 0 (VoteState.mk [] [0]))).down := by
  decide

/-- C3: `isUserOnline` holds iff the registry entry exists and is
non-empty; and in the two-connection scenario (connect sockets 1 and 2,
then disconnect them in turn) the user is still online after the first
disconnect, offline after the second, the empty entry is dropped, and the
offline persist and offline broadcast each fire exactly once. -/
theorem presence_online_iff_and_two_connection_scenario :
    (∀ (reg : Registry) (uid : ℕ),
      isUserOnline reg uid = true ↔ ∃ s, reg.lookup uid = some s ∧ s ≠ []) ∧
    (let c1 := handleConnect [] 0 1
     let c2 := handleConnect c1.1 0 2
     let d1 := handleDisconnect c2.1 0 1
     let d2 := handleDisconnect d1.1 0 2
     let events := c1.2 ++ c2.2 ++ d1.2 ++ d2.2
     isUserOnline d1.1 0 = true ∧
     isUserOnline d2.1 0 = false ∧
     d2.1.lookup 0 = none ∧
     events.count (.statusPersist 0 false) = 1 ∧
     events.count (.broadcast 0 false) = 1) := by
  constructor
  · intro reg uid
    cases h : reg.lookup uid with
    | none => simp [isUserOnline, h]
    | some s =>
      simp [isUserOnline, h, List.length_pos]
  · decide

theorem moderationBlock_eq (svc : Except Unit ModResult) (msg : String) :
    moderationBlock svc msg = moderateContent svc := by
  show (match moderationGate (moderateContent svc) msg with
        | .ok _ => moderateContent svc
        | .error _ => moderateContent svc) = moderateContent svc
  cases moderationGate (moderateContent svc) msg <;> rfl

/-- C6: when the moderation result is flagged or its toxicity exceeds 0.7,
`createPost` and `sendMessage` still persist the post/message carrying
that analysis and return success — the guideline `ApiError` is raised
inside the `try` block whose `catch` only logs, so it never reaches the
caller. -/
theorem flagged_content_still_persisted (r : ModResult) (contentLen now : ℕ)
    (ctx : CreateCtx) (sctx : SendCtx) (senderId cid : String)
    (_hflag : r.flagged = true ∨ (7/10 : ℚ) < r.toxicity_score)
    (hlen : 10 < contentLen)
    (h1 : ctx.communityFound = true) (h2 : ctx.communityActive = true)
    (h3 : ctx.isMember = true) (h4 : ctx.modOnlyPosts = false)
    (g1 : sctx.communityFound = true) (g2 : sctx.communityActive = true)
    (g3 : sctx.isMember = true) :
    createPost ctx contentLen (.ok r) now =
      .ok { aiAnalysis := some (toAiAnalysis r now) } ∧
    sendMessage senderId contentLen (some cid) none sctx (.ok r) now =
      .ok { sender := senderId, community := some cid,
            channel := "community:" ++ cid,
            aiAnalysis := some { sentiment := r.sentiment,
                                 toxicityScore := r.toxicity_score },
            deliveredTo := [(senderId, now)] } := by
  constructor
  · simp [createPost, h1, h2, h3, h4, moderationBlock_eq, moderateContent, hlen]
  · simp [sendMessage, g1, g2, g3, moderationBlock_eq, moderateContent, hlen]

/-- Witness for C6: a flagged, maximally toxic moderation response on a
20-character post and message, with every recipient check passing. -/
theorem flagged_content_still_persisted_witness :
    ((ModResult.mk 1 false true none none none).flagged = true ∨
      (7/10 : ℚ) < (ModResult.mk 1 false true none none none).toxicity_score) ∧
    (10 : ℕ) < 20 ∧
    createPost ⟨true, true, true, false, false⟩ 20
        (.ok (ModResult.mk 1 false true none none none)) 5 =
      .ok { aiAnalysis :=
              some (toAiAnalysis (ModResult.mk 1 false true none none none) 5) } :=
  ⟨Or.inl rfl, by decide,
    (flagged_content_still_persisted (ModResult.mk 1 false true none none none)
      20 5 ⟨true, true, true, false, false⟩ ⟨true, true, true, true⟩ "s" "c"
      (Or.inl rfl) (by decide) rfl rfl rfl rfl rfl rfl rfl).1⟩

/-- C5 (amended): when the moderation service errors or times out,
`createPost` still creates the post; the call substitutes the safe
default (`flagged=false`, `toxicity_score=0.0`), and the created post's
`aiAnalysis` field is therefore present, holding that safe default —
not absent. -/
theorem ai_failure_creates_post_with_safe_default (ctx : CreateCtx)
    (contentLen now : ℕ)
    (h1 : ctx.communityFound = true) (h2 : ctx.communityActive = true)
    (h3 : ctx.isMember = true) (h4 : ctx.modOnlyPosts = false)
    (hlen : 10 < contentLen) :
    moderateContent (.error ()) = safeDefault ∧
    safeDefault.flagged = false ∧
    safeDefault.toxicity_score = 0 ∧
    createPost ctx contentLen (.error ()) now =
      .ok { aiAnalysis := some (toAiAnalysis safeDefault now) } := by
  refine ⟨rfl, rfl, rfl, ?_⟩
  simp [createPost, h1, h2, h3, h4, moderationBlock_eq, moderateContent, hlen]

/-- Witness for C5's amended claim: all checks pass, content length 20,
service failure; the post is created with the safe-default analysis. -/
theorem ai_failure_creates_post_with_safe_default_witness :
    (10 : ℕ) < 20 ∧
    createPost ⟨true, true, true, false, false⟩ 20 (.error ()) 5 =
      .ok { aiAnalysis := some (toAiAnalysis safeDefault 5) } :=
  ⟨by decide,
    (ai_failure_creates_post_with_safe_default ⟨true, true, true, false, false⟩
      20 5 rfl rfl rfl rfl (by decide)).2.2.2⟩

/-- C5 counterexample: with the service failing on a valid 20-character
post, the created post's `aiAnalysis` is `some` of the safe default — the
claim that the field is absent fails at this input. -/
theorem ai_failure_aiAnalysis_not_absent :
    createPost ⟨true, true, true, false, false⟩ 20 (.error ()) 5 =
      .ok { aiAnalysis := some (toAiAnalysis safeDefault 5) } ∧
    some (toAiAnalysis safeDefault 5) ≠ (none : Option AiAnalysis) := by
  refine ⟨?_, by simp⟩
  simp [createPost, moderationBlock_eq, moderateContent]

theorem markDelivered_idem (m : Message) (u : String) (t1 t2 : ℕ) :
    markDelivered (markDelivered m u t1) u t2 = markDelivered m u t1 := by
  by_cases h : m.deliveredTo.any (fun e => e.1 == u) <;>
    simp [markDelivered, h]

theorem markAsRead_idem (m : Message) (u : String) (b : Bool) (t1 t2 : ℕ)
    (m1 : Message) (h : markAsRead m u b t1 = .ok m1) :
    markAsRead m1 u b t2 = .ok m1 := by
  by_cases hp : isParticipantCheck m u b
  · by_cases hr : m.readBy.any (fun e => e.1 == u)
    · simp [markAsRead, hp, hr] at h
      subst h
      simp [markAsRead, hp, hr]
    · simp [markAsRead, hp, hr] at h
      subst h
      have hp1 : isParticipantCheck { m with readBy := m.readBy ++ [(u, t1)] } u b = true := hp
      simp [markAsRead, hp1]
  · simp [markAsRead, hp] at h

theorem markDelivered_count (m : Message) (u : String) (t : ℕ)
    (h : m.deliveredTo.countP (fun e => e.1 == u) = 0) :
    (markDelivered m u t).deliveredTo.countP (fun e => e.1 == u) = 1 := by
  have hna : m.deliveredTo.any (fun e => e.1 == u) = false := by
    rw [List.countP_eq_zero] at h
    simp only [List.any_eq_false]
    intro e he
    simpa using h e he
  simp [markDelivered, hna, List.countP_append, h]

theorem markAsRead_count (m : Message) (u : String) (b : Bool) (t : ℕ)
    (m1 : Message) (h : m.readBy.countP (fun e => e.1 == u) = 0)
    (hok : markAsRead m u b t = .ok m1) :
    m1.readBy.countP (fun e => e.1 == u) = 1 := by
  have hna : m.readBy.any (fun e => e.1 == u) = false := by
    rw [List.countP_eq_zero] at h
    simp only [List.any_eq_false]
    intro e he
    simpa using h e he
  by_cases hp : isParticipantCheck m u b
  · simp [markAsRead, hp, hna] at hok
    subst hok
    simp [List.countP_append, h]
  · simp [markAsRead, hp] at hok

/-- C7: delivery and read receipts are idempotent per user — re-marking a
message delivered leaves it unchanged, a second `markAsRead` by the same
user returns the same document, and in both cases a user starting with no
receipt ends with exactly one receipt entry. -/
theorem receipt_insertion_idempotent :
    (∀ (m : Message) (u : String) (t1 t2 : ℕ),
      markDelivered (markDelivered m u t1) u t2 = markDelivered m u t1) ∧
    (∀ (m : Message) (u : String) (b : Bool) (t1 t2 : ℕ) (m1 : Message),
      markAsRead m u b t1 = .ok m1 → markAsRead m1 u b t2 = .ok m1) ∧
    (∀ (m : Message) (u : String) (t1 t2 : ℕ),
      m.deliveredTo.countP (fun e => e.1 == u) = 0 →
      (markDelivered (markDelivered m u t1) u t2).deliveredTo.countP
        (fun e => e.1 == u) = 1) ∧
    (∀ (m : Message) (u : String) (b : Bool) (t : ℕ) (m1 : Message),
      m.readBy.countP (fun e => e.1 == u) = 0 →
      markAsRead m u b t = .ok m1 →
      m1.readBy.countP (fun e => e.1 == u) = 1) := by
  refine ⟨markDelivered_idem, markAsRead_idem, ?_, markAsRead_count⟩
  intro m u t1 t2 h
  rw [markDelivered_idem]
  exact markDelivered_count m u t1 h

/-- Witness for C7: a direct message from "a", read and delivered by "a"
starting from empty receipt lists, ends with exactly one receipt each. -/
theorem receipt_insertion_idempotent_witness :
    (Message.mk "a" none none "dm:a:b" none [] []).readBy.countP
        (fun e => e.1 == "a") = 0 ∧
    (Message.mk "a" none none "dm:a:b" none [] []).deliveredTo.countP
        (fun e => e.1 == "a") = 0 ∧
    (markDelivered (markDelivered (Message.mk "a" none none "dm:a:b" none [] [])
        "a" 3) "a" 4).deliveredTo.countP (fun e => e.1 == "a") = 1 ∧
    (Message.mk "a" none none "dm:a:b" none [] [("a", 3)]).readBy.countP
        (fun e => e.1 == "a") = 1 :=
  ⟨rfl, rfl,
    receipt_insertion_idempotent.2.2.1 (Message.mk "a" none none "dm:a:b" none [] [])
      "a" 3 4 rfl,
    receipt_insertion_idempotent.2.2.2 (Message.mk "a" none none "dm:a:b" none [] [])
      "a" false 3 (Message.mk "a" none none "dm:a:b" none [] [("a", 3)]) rfl rfl⟩

/-- C8: the direct-message channel is `dm:<min(A,B)>:<max(A,B)>` under the
lexicographic order on id strings, hence symmetric in its arguments, and
`sendMessage` stores exactly this channel on a direct message. -/
theorem dm_channel_sorted_pair_symmetric :
    (∀ a b : String, getDirectMessageChannel a b =
      "dm:" ++ min a b ++ ":" ++ max a b) ∧
    (∀ a b : String, getDirectMessageChannel a b = getDirectMessageChannel b a) ∧
    (∀ (senderId rid : String) (contentLen now : ℕ) (sctx : SendCtx)
      (svc : Except Unit ModResult), sctx.receiverFound = true →
      (sendMessage senderId contentLen none (some rid) sctx svc now).map
        Message.channel = .ok (getDirectMessageChannel senderId rid)) := by
  have key : ∀ a b : String, getDirectMessageChannel a b =
      "dm:" ++ min a b ++ ":" ++ max a b := by
    intro a b
    by_cases h : b < a
    · simp [getDirectMessageChannel, h, min_eq_right (le_of_lt h),
        max_eq_left (le_of_lt h)]
    · have hab : a ≤ b := not_lt.mp h
      simp [getDirectMessageChannel, h, min_eq_left hab, max_eq_right hab]
  refine ⟨key, fun a b => ?_, ?_⟩
  · rw [key, key, min_comm, max_comm]
  · intro senderId rid contentLen now sctx svc hrf
    simp [sendMessage, hrf, Except.map]

/-- Witness for C8: with the receiver check passing, a DM from "b" to "a"
is stored under the channel computed by `getDirectMessageChannel`. -/
theorem dm_channel_sorted_pair_symmetric_witness :
    (SendCtx.mk true true true true).receiverFound = true ∧
    (sendMessage "b" 0 none (some "a") (SendCtx.mk true true true true)
        (.error ()) 7).map Message.channel =
      .ok (getDirectMessageChannel "b" "a") :=
  ⟨rfl, dm_channel_sorted_pair_symmetric.2.2 "b" "a" 0 7
    (SendCtx.mk true true true true) (.error ()) rfl⟩

theorem cacheGet_clearPat_matched {V : Type} (cache : List (String × V))
    (pat k : String) (h : pat.data.isPrefixOf k.data = true) :
    cacheGet (clearPat cache pat) k = none := by
  induction cache with
  | nil => rfl
  | cons e rest ih =>
    rw [clearPat, List.filter_cons]
    by_cases he : pat.data.isPrefixOf e.1.data
    · simp only [he, Bool.not_true, if_neg Bool.false_ne_true]
      exact ih
    · have hk : (k == e.1) = false := by
        rw [beq_eq_false_iff_ne]
        rintro rfl
        exact he h
      simp only [Bool.not_eq_true] at he
      simp only [he, Bool.not_false, if_pos rfl]
      show List.lookup k (e :: clearPat rest pat) = none
      rw [show e = (e.1, e.2) from rfl, List.lookup_cons, hk]
      exact ih

theorem cacheGet_clearPat_of_none {V : Type} (cache : List (String × V))
    (pat k : String) (h : cacheGet cache k = none) :
    cacheGet (clearPat cache pat) k = none := by
  induction cache with
  | nil => rfl
  | cons e rest ih =>
    have h' : List.lookup k (e :: rest) = none := h
    rw [show e = (e.1, e.2) from rfl, List.lookup_cons] at h'
    cases hk : (k == e.1) with
    | true => rw [hk] at h'; exact absurd h' (by simp)
    | false =>
      rw [hk] at h'
      have hrest := ih h'
      rw [clearPat, List.filter_cons]
      by_cases he : pat.data.isPrefixOf e.1.data
      · simp only [he, Bool.not_true, if_neg Bool.false_ne_true]
        exact hrest
      · simp only [Bool.not_eq_true] at he
        simp only [he, Bool.not_false, if_pos rfl]
        show List.lookup k (e :: clearPat rest pat) = none
        rw [show e = (e.1, e.2) from rfl, List.lookup_cons, hk]
        exact hrest

theorem listingKey_matches_pat (cid filters : String) (page limit : ℕ)
    (sortKey : String) :
    (communityPostsPat cid).data.isPrefixOf
      (listingCacheKey cid filters page limit sortKey).data = true := by
  have hsplit : listingCacheKey cid filters page limit sortKey =
      communityPostsPat cid ++ (filters ++ ":" ++ toString page ++ ":" ++
        toString limit ++ ":" ++ sortKey) := by
    simp [listingCacheKey, communityPostsPat, String.append_assoc]
  rw [hsplit, String.data_append]
  exact List.isPrefixOf_iff_prefix.mpr (List.prefix_append _ _)

/-- C9: after `createPost`'s cache invalidation for community `cid`, every
cached listing key `getPostsByCommunity` could have written for `cid`
(any filters, page, limit, sort) reads as a miss. -/
theorem createPost_invalidates_community_listings {V : Type}
    (cid uid filters : String) (page limit : ℕ) (sortKey : String)
    (cache : List (String × V)) :
    cacheGet (createPostClearCache cid uid cache)
      (listingCacheKey cid filters page limit sortKey) = none := by
  unfold createPostClearCache
  exact cacheGet_clearPat_of_none _ _ _
    (cacheGet_clearPat_matched cache _ _
      (listingKey_matches_pat cid filters page limit sortKey))

end Petly
